import Mathlib

set_option autoImplicit false

/-- Connectivity states of a gRPC channel, mirroring the `connectivityState`
enum of grpc-js that `proxy.ts` imports. -/
inductive ConnectivityState where
  | IDLE
  | CONNECTING
  | READY
  | TRANSIENT_FAILURE
  | SHUTDOWN
  deriving DecidableEq, Repr

/-- A connection handle, modelling the `ServiceClient` object returned by
`connect()` in `client.ts`.  `uid` models JavaScript object identity (each
`new service(...)` call yields a distinct object), `chanState` models the
result of `getChannel().getConnectivityState(false)`, and `closed` records
whether `close()` has been called on the handle.  A freshly constructed
client starts with an `IDLE` channel. -/
structure Conn where
  uid : Nat
  chanState : ConnectivityState
  closed : Bool
  deriving DecidableEq, Repr

/-- Closing a handle (`ServiceClient#close`): the channel of a closed
grpc-js client reports `SHUTDOWN` from then on. -/
def Conn.close (c : Conn) : Conn :=
  { c with chanState := ConnectivityState.SHUTDOWN, closed := true }

/-- One server configuration of a `ServiceProxy` (`{ address, credentials,
options }` in `proxy.ts`).  The credentials and options are opaque to the
pool logic and are collapsed into a single opaque tag. -/
structure ServerConfig where
  address : String
  credTag : Nat
  deriving DecidableEq, Repr

/-- Lookup in a string-keyed association list, modelling JavaScript
object/`Map` key lookup (`this.instances[address]`, `registry.get(name)`);
keys stay unique because entries are only ever added when absent. -/
def alistLookup {α : Type} (l : List (String × α)) (k : String) : Option α :=
  (l.find? (fun p => p.1 == k)).map (fun p => p.2)

/-- Mutable state of a `ServiceProxy` (`proxy.ts`): the `servers`
configuration list, the `instances` cache mapping an address to its
connection handle, and the round-robin accumulator `acc`.  `nextUid` is the
model's supply of fresh object identities for newly constructed clients. -/
structure PoolState where
  servers : List ServerConfig
  instances : List (String × Conn)
  acc : Nat
  nextUid : Nat
  deriving Repr

/-- One entry of the `ctx.servers` snapshot passed to a custom
`routeResolver` by `ServiceProxy.getInstance`. -/
structure CtxServer where
  address : String
  state : ConnectivityState
  deriving DecidableEq, Repr

/-- The context object passed to a custom `routeResolver`
(`proxy.ts` lines 101-116); `pkg` and `svcId` stand for the `package` and
`service` fields, and `P` is the caller-chosen route-parameter type. -/
structure RouteCtx (P : Type) where
  servers : List CtxServer
  pkg : String
  svcId : Nat
  params : Option P
  acc : Nat

/-- JavaScript `Number.MAX_SAFE_INTEGER`. -/
def MAX_SAFE_INTEGER : Nat := 2 ^ 53 - 1

/-- The two errors thrown by `ServiceProxy.getInstance`:
`NoAvailableServer` is "No server address is available" and `InvalidRoute`
is "The resolve server address is invalid". -/
inductive PoolError where
  | NoAvailableServer
  | InvalidRoute
  deriving DecidableEq, Repr

/-- The health filter of the default strategy (`proxy.ts` lines 120-130):
an address is kept when it has no cached instance, or when its cached
instance's channel is neither `SHUTDOWN` nor `TRANSIENT_FAILURE`. -/
def healthyAddr (instances : List (String × Conn)) (address : String) : Bool :=
  match alistLookup instances address with
  | some ins =>
      !(ins.chanState == ConnectivityState.SHUTDOWN)
        && !(ins.chanState == ConnectivityState.TRANSIENT_FAILURE)
  | none => true

/-- Candidate address list of the default round-robin strategy
(`proxy.ts` lines 119-130): all configured addresses, filtered by
health. -/
def defaultCandidates (st : PoolState) : List String :=
  (st.servers.map (fun config => config.address)).filter (healthyAddr st.instances)

/-- Address-selection step of `ServiceProxy.getInstance` (`proxy.ts` lines
101-132): a custom `routeResolver` receives a snapshot with live channel
states (`IDLE` for an address with no cached instance) and returns an
address, while the default strategy indexes the filtered candidate list
with `acc % length`.  The result `none` models the JavaScript `undefined`
produced by an out-of-range index (empty candidate list). -/
def selectAddr {P : Type} (resolver : Option (RouteCtx P → String)) (pkg : String)
    (svcId : Nat) (st : PoolState) (params : Option P) : Option String :=
  match resolver with
  | some f =>
      some (f { servers := st.servers.map (fun config =>
                  { address := config.address,
                    state := match alistLookup st.instances config.address with
                      | some ins => ins.chanState
                      | none => ConnectivityState.IDLE }),
                pkg := pkg, svcId := svcId, params := params, acc := st.acc })
  | none =>
      let addresses := defaultCandidates st
      addresses[st.acc % addresses.length]?

/-- The body of `ServiceProxy.getInstance` (`proxy.ts` lines 98-156).
The accumulator is incremented by the selection step itself (`this.acc++`)
and wrapped to 0 once it exceeds `Number.MAX_SAFE_INTEGER`, before any of
the failure checks run.  A falsy address (`undefined` from an empty
candidate list, or the empty string) throws "No server address is
available"; an address that is not cached and has no matching server
configuration throws "The resolve server address is invalid"; otherwise
the cached handle is returned, or a fresh client is connected and cached
on first use. -/
def ServiceProxy.getInstance {P : Type} (resolver : Option (RouteCtx P → String))
    (pkg : String) (svcId : Nat) (st : PoolState) (params : Option P) :
    Except PoolError Conn × PoolState :=
  let addrOpt := selectAddr resolver pkg svcId st params
  let acc1 := st.acc + 1
  let acc2 := if acc1 > MAX_SAFE_INTEGER then 0 else acc1
  let st1 : PoolState := { st with acc := acc2 }
  match addrOpt with
  | none => (Except.error PoolError.NoAvailableServer, st1)
  | some address =>
      if address == "" then
        (Except.error PoolError.NoAvailableServer, st1)
      else
        match alistLookup st.instances address with
        | some ins => (Except.ok ins, st1)
        | none =>
            match st.servers.find? (fun config => config.address == address) with
            | none => (Except.error PoolError.InvalidRoute, st1)
            | some _config =>
                let ins : Conn :=
                  { uid := st.nextUid, chanState := ConnectivityState.IDLE, closed := false }
                (Except.ok ins,
                  { st1 with
                      instances := st.instances ++ [(address, ins)],
                      nextUid := st.nextUid + 1 })

/-- The body of `ServiceProxy.addServer` (`proxy.ts` lines 61-76): push the
configuration unless the address is already present. -/
def ServiceProxy.addServer (st : PoolState) (address : String) (credTag : Nat) :
    Bool × PoolState :=
  if !(st.servers.any (fun item => item.address == address)) then
    (true, { st with servers := st.servers ++ [{ address := address, credTag := credTag }] })
  else
    (false, st)

/-- The body of `ServiceProxy.removeServer` (`proxy.ts` lines 82-89):
filter the configuration list; the `instances` cache is not touched. -/
def ServiceProxy.removeServer (st : PoolState) (address : String) : Bool × PoolState :=
  if st.servers.any (fun item => item.address == address) then
    (true, { st with servers := st.servers.filter (fun item => !(item.address == address)) })
  else
    (false, st)

/-- The body of `ServiceProxy.close` (`proxy.ts` lines 159-163): call
`close()` on every cached instance.  Neither the `servers` list nor the
`instances` map itself is cleared. -/
def ServiceProxy.close (st : PoolState) : PoolState :=
  { st with instances := st.instances.map (fun p => (p.1, Conn.close p.2)) }

/-- A registered `ServiceProxy` as seen by the `ConnectionManager`
(`proxy.ts`): its `packageName`, the `serviceName` of its service
constructor, the constructor's identity, its pool state and its configured
`routeResolver` (route-parameter type fixed to `Unit` in the registry
model). -/
structure ProxyEntry where
  packageName : String
  serviceName : String
  svcId : Nat
  pool : PoolState
  resolver : Option (RouteCtx Unit → String)

/-- State of a `ConnectionManager` (`proxy.ts` line 171): the insertion
ordered name-to-proxy registry `Map`. -/
structure ManagerState where
  registry : List (String × ProxyEntry)

/-- Errors raised by `ConnectionManager` operations:
`InvalidServiceName` is the `TypeError("Invalid service name")`,
`ServiceNotRegistered` the `ReferenceError` naming the service, and
`poolError` wraps an error propagated from `ServiceProxy.getInstance`. -/
inductive MgrError where
  | InvalidServiceName
  | ServiceNotRegistered (name : String)
  | poolError (e : PoolError)
  deriving DecidableEq, Repr

/-- Logical name of a proxy as computed by `ConnectionManager.register`
(`proxy.ts` line 174): `proxy.packageName + "." + serviceName`. -/
def proxyFullName (p : ProxyEntry) : String :=
  p.packageName ++ "." ++ p.serviceName

/-- The body of `ConnectionManager.register` (`proxy.ts` lines 173-182):
refuse when the name is taken, otherwise store the proxy. -/
def ConnectionManager.register (m : ManagerState) (p : ProxyEntry) : Bool × ManagerState :=
  let name := proxyFullName p
  match alistLookup m.registry name with
  | some _ => (false, m)
  | none => (true, { registry := m.registry ++ [(name, p)] })

/-- Index of the last occurrence of a dot in a character list, modelling
`target.lastIndexOf(".")`; `none` models the return value -1. -/
def lastDotIdx : List Char → Option Nat
  | [] => none
  | c :: cs =>
      match lastDotIdx cs with
      | some i => some (i + 1)
      | none => if c == '.' then some 0 else none

/-- The failure of `ConnectionManager.destructPackageAndServiceNames`:
the `TypeError("Invalid service name")`. -/
inductive NameError where
  | InvalidServiceName
  deriving DecidableEq, Repr

/-- The string branch of `ConnectionManager.destructPackageAndServiceNames`
(`proxy.ts` lines 236-244): split at the last dot, rejecting inputs for
which `index <= 0 || index === target.length - 1`, where `index` is
`lastIndexOf(".")`.  The case `index = -1` (no dot) is the `none` branch
of `lastDotIdx`, so the remaining check is `index = 0` or
`index = length - 1`.  The non-string branch of the source reads
`packageName`/`serviceName` straight off a proxy object and cannot
fail. -/
def destructPackageAndServiceNames (target : String) : Except NameError (String × String) :=
  match lastDotIdx target.data with
  | none => Except.error NameError.InvalidServiceName
  | some index =>
      if index = 0 ∨ index = target.data.length - 1 then
        Except.error NameError.InvalidServiceName
      else
        Except.ok (String.mk (target.data.take index), String.mk (target.data.drop (index + 1)))

/-- The string-target branch of `ConnectionManager.getInstanceOf`
(`proxy.ts` lines 217-230): destructure the name, look the proxy up in the
registry and delegate to `ServiceProxy.getInstance`; the proxy's state
mutation persists in the registry because the registry holds the proxy
object itself.  An unknown name raises the `ReferenceError`. -/
def ConnectionManager.getInstanceOf (m : ManagerState) (target : String)
    (params : Option Unit) : Except MgrError Conn × ManagerState :=
  match destructPackageAndServiceNames target with
  | Except.error _ => (Except.error MgrError.InvalidServiceName, m)
  | Except.ok (packageName, serviceName) =>
      let name := packageName ++ "." ++ serviceName
      match alistLookup m.registry name with
      | none => (Except.error (MgrError.ServiceNotRegistered name), m)
      | some entry =>
          let r := ServiceProxy.getInstance entry.resolver entry.packageName entry.svcId
            entry.pool params
          let m1 : ManagerState :=
            { registry := m.registry.map (fun q =>
                if q.1 == name then (q.1, { entry with pool := r.2 }) else q) }
          match r.1 with
          | Except.ok c => (Except.ok c, m1)
          | Except.error e => (Except.error (MgrError.poolError e), m1)

/-- Own and prototype member names of the `ChainingProxy` class; `__get`
returns these members themselves instead of traversing (`prop in this`).
For a function-shaped node the `Function.prototype` members behave the
same way; the claims only traverse ordinary service-path segments. -/
def chainOwnProps : List String :=
  ["__target", "__manager", "__children", "__get", "__has", "constructor"]

/-- Path accumulated by `ChainingProxy.__get` when it materializes a child
node (`proxy.ts` lines 295-300):
`(this.__target ? this.__target + "." : "") + String(prop)`. -/
def ChainingProxy.childPath (target : String) (prop : String) : String :=
  (if target != "" then target ++ "." else "") ++ prop

/-- Invocation of a chaining-proxy node (`proxy.ts` lines 308-311): the
node's accumulated path is resolved as a logical service name through
`manager.getInstanceOf(target, routeParams)`. -/
def chainInvoke (m : ManagerState) (target : String) (params : Option Unit) :
    Except MgrError Conn × ManagerState :=
  ConnectionManager.getInstanceOf m target params

/-- A pool as just constructed (`new ServiceProxy(target, servers, ...)`):
no cached instances, accumulator 0. -/
def freshPool (servers : List ServerConfig) : PoolState :=
  { servers := servers, instances := [], acc := 0, nextUid := 0 }

/-- One `getInstance()` call under the default strategy (no custom
`routeResolver`, no route parameters). -/
def stepDefault (st : PoolState) : Except PoolError Conn × PoolState :=
  ServiceProxy.getInstance (P := Unit) none "" 0 st none

/-- Pool state after `n` consecutive default-strategy `getInstance()`
calls. -/
def iterDefault : Nat → PoolState → PoolState
  | 0, st => st
  | n + 1, st => iterDefault n (stepDefault st).2

/-- Results of `n` consecutive default-strategy `getInstance()` calls, in
call order. -/
def callsDefault : Nat → PoolState → List (Except PoolError Conn)
  | 0, _ => []
  | n + 1, st => (stepDefault st).1 :: callsDefault n (stepDefault st).2

/-- The premise of round-robin fairness: every server whose address has a
cached connection sees a healthy (neither `SHUTDOWN` nor
`TRANSIENT_FAILURE`) channel; servers with no cached connection are
unconstrained. -/
def healthyServers (st : PoolState) : Prop :=
  ∀ config ∈ st.servers, ∀ ins, alistLookup st.instances config.address = some ins →
    ins.chanState ≠ ConnectivityState.SHUTDOWN
      ∧ ins.chanState ≠ ConnectivityState.TRANSIENT_FAILURE

theorem alistLookup_nil {α : Type} (k : String) : alistLookup ([] : List (String × α)) k = none := rfl

theorem alistLookup_cons {α : Type} (a : String) (v : α) (l : List (String × α)) (k : String) :
    alistLookup ((a, v) :: l) k = if a == k then some v else alistLookup l k := by
  by_cases h : a == k
  · simp [alistLookup, List.find?, h]
  · simp only [Bool.not_eq_true] at h
    simp [alistLookup, List.find?, h]

theorem alistLookup_append {α : Type} (l l2 : List (String × α)) (k : String) :
    alistLookup (l ++ l2) k =
      match alistLookup l k with
      | some v => some v
      | none => alistLookup l2 k := by
  induction l with
  | nil => simp [alistLookup_nil]
  | cons p t ih =>
      rw [List.cons_append, show p = (p.1, p.2) from rfl, alistLookup_cons, alistLookup_cons]
      by_cases h : p.1 == k
      · simp [h]
      · simp only [Bool.not_eq_true] at h
        simp [h, ih]

theorem alistLookup_map_value {α β : Type} (f : α → β) (l : List (String × α)) (k : String) :
    alistLookup (l.map (fun p => (p.1, f p.2))) k = (alistLookup l k).map f := by
  induction l with
  | nil => simp [alistLookup_nil]
  | cons p t ih =>
      rw [List.map_cons, alistLookup_cons, show p = (p.1, p.2) from rfl, alistLookup_cons]
      by_cases h : p.1 == k
      · simp [h]
      · simp only [Bool.not_eq_true] at h
        simp [h, ih]

theorem alistLookup_single {α : Type} (a : String) (v : α) (k : String) :
    alistLookup [(a, v)] k = if a == k then some v else none := by
  rw [alistLookup_cons, alistLookup_nil]

theorem healthyAddr_of_healthyServers (st : PoolState) (h : healthyServers st)
    (config : ServerConfig) (hc : config ∈ st.servers) :
    healthyAddr st.instances config.address = true := by
  unfold healthyAddr
  cases hl : alistLookup st.instances config.address with
  | none => rfl
  | some ins =>
      obtain ⟨h1, h2⟩ := h config hc ins hl
      simp [h1, h2]

theorem defaultCandidates_of_healthyServers (st : PoolState) (h : healthyServers st) :
    defaultCandidates st = st.servers.map (fun config => config.address) := by
  unfold defaultCandidates
  apply List.filter_eq_self.mpr
  intro a ha
  rcases List.mem_map.mp ha with ⟨config, hc, rfl⟩
  exact healthyAddr_of_healthyServers st h config hc

theorem getInstance_frame {P : Type} (resolver : Option (RouteCtx P → String))
    (pkg : String) (svcId : Nat) (st : PoolState) (params : Option P) :
    (ServiceProxy.getInstance resolver pkg svcId st params).2.servers = st.servers
    ∧ (ServiceProxy.getInstance resolver pkg svcId st params).2.acc
        = (if st.acc + 1 > MAX_SAFE_INTEGER then 0 else st.acc + 1)
    ∧ ((ServiceProxy.getInstance resolver pkg svcId st params).2.instances = st.instances
        ∨ ∃ a, (ServiceProxy.getInstance resolver pkg svcId st params).2.instances
            = st.instances
              ++ [(a, { uid := st.nextUid, chanState := ConnectivityState.IDLE, closed := false })]) := by
  unfold ServiceProxy.getInstance
  cases hsel : selectAddr resolver pkg svcId st params with
  | none => simp
  | some address =>
      by_cases ha : address == ""
      · simp [ha]
      · simp only [Bool.not_eq_true] at ha
        cases hl : alistLookup st.instances address with
        | some ins => simp [ha, hl]
        | none =>
            cases hf : st.servers.find? (fun config => config.address == address) with
            | none => simp [ha, hl, hf]
            | some config =>
                refine ⟨by simp [ha, hl, hf], by simp [ha, hl, hf], Or.inr ⟨address, ?_⟩⟩
                simp [ha, hl, hf]

theorem stepDefault_preserves (st : PoolState) (h : healthyServers st) :
    (stepDefault st).2.servers = st.servers
    ∧ (stepDefault st).2.acc = (if st.acc + 1 > MAX_SAFE_INTEGER then 0 else st.acc + 1)
    ∧ healthyServers (stepDefault st).2 := by
  have hs : (stepDefault st).2.servers = st.servers :=
    (getInstance_frame (P := Unit) none "" 0 st none).1
  have ha : (stepDefault st).2.acc = (if st.acc + 1 > MAX_SAFE_INTEGER then 0 else st.acc + 1) :=
    (getInstance_frame (P := Unit) none "" 0 st none).2.1
  have hi : ((stepDefault st).2.instances = st.instances
      ∨ ∃ a, (stepDefault st).2.instances
          = st.instances
            ++ [(a, { uid := st.nextUid, chanState := ConnectivityState.IDLE, closed := false })]) :=
    (getInstance_frame (P := Unit) none "" 0 st none).2.2
  refine ⟨hs, ha, ?_⟩
  intro config hc ins hl
  rw [hs] at hc
  rcases hi with he | ⟨a, he⟩
  · rw [he] at hl
    exact h config hc ins hl
  · rw [he, alistLookup_append] at hl
    cases hl0 : alistLookup st.instances config.address with
    | some ins0 =>
        rw [hl0] at hl
        simp only [Option.some.injEq] at hl
        exact hl ▸ h config hc ins0 hl0
    | none =>
        rw [hl0, alistLookup_single] at hl
        by_cases hk : a == config.address
        · simp only [hk, if_true, Option.some.injEq] at hl
          rw [← hl]
          exact ⟨by simp, by simp⟩
        · simp only [Bool.not_eq_true] at hk
          simp [hk] at hl

theorem iterDefault_spec (j : Nat) : ∀ st : PoolState, healthyServers st →
    st.acc + j ≤ MAX_SAFE_INTEGER →
    (iterDefault j st).servers = st.servers
    ∧ (iterDefault j st).acc = st.acc + j
    ∧ healthyServers (iterDefault j st) := by
  induction j with
  | zero => intro st h _; exact ⟨rfl, rfl, h⟩
  | succ n ih =>
      intro st h hacc
      obtain ⟨hs, ha, hh⟩ := stepDefault_preserves st h
      have hle : st.acc + 1 ≤ MAX_SAFE_INTEGER := by omega
      have ha1 : (stepDefault st).2.acc = st.acc + 1 := by
        rw [ha, if_neg (by omega)]
      have : iterDefault (n + 1) st = iterDefault n (stepDefault st).2 := rfl
      rw [this]
      obtain ⟨ihs, iha, ihh⟩ := ih (stepDefault st).2 hh (by omega)
      exact ⟨ihs.trans hs, by rw [iha, ha1]; omega, ihh⟩

theorem selectAddr_none {P : Type} (pkg : String) (svcId : Nat) (st : PoolState)
    (params : Option P) :
    selectAddr (P := P) none pkg svcId st params
      = (defaultCandidates st)[st.acc % (defaultCandidates st).length]? := rfl

theorem selectAddr_default (st : PoolState) (h : healthyServers st)
    (hne : st.servers ≠ []) :
    selectAddr (P := Unit) none "" 0 st none
      = some ((st.servers.map (fun config => config.address)).getD
          (st.acc % st.servers.length) "") := by
  have hlen : (st.servers.map (fun config => config.address)).length = st.servers.length :=
    List.length_map _ _
  have hpos : 0 < st.servers.length := List.length_pos.mpr hne
  have hlt : st.acc % st.servers.length < st.servers.length := Nat.mod_lt _ hpos
  rw [selectAddr_none, defaultCandidates_of_healthyServers st h, hlen,
    List.getElem?_eq_getElem (by rw [hlen]; exact hlt),
    List.getD_eq_getElem _ _ (by rw [hlen]; exact hlt)]

/-- C1: for every pool whose servers all have healthy or absent cached
connections and no custom `routeResolver`, the j-th subsequent
`getInstance()` call selects the address at position `(acc + j) mod N` of
the descriptor list, so N consecutive calls select all N addresses exactly
once each in descriptor order before the cycle repeats; and a fresh pool
with servers s1, s2, s3 yields the handles bound to s1, s2, s3, s1, s2 on
its first five calls. -/
theorem roundRobin_default_order :
    (∀ (st : PoolState) (j : Nat),
        healthyServers st → st.servers ≠ [] → st.acc + j ≤ MAX_SAFE_INTEGER →
        selectAddr (P := Unit) none "" 0 (iterDefault j st) none
          = some ((st.servers.map (fun config => config.address)).getD
              ((st.acc + j) % st.servers.length) ""))
    ∧ (callsDefault 5 (freshPool [⟨"s1", 0⟩, ⟨"s2", 0⟩, ⟨"s3", 0⟩])
        = [Except.ok ⟨0, ConnectivityState.IDLE, false⟩,
           Except.ok ⟨1, ConnectivityState.IDLE, false⟩,
           Except.ok ⟨2, ConnectivityState.IDLE, false⟩,
           Except.ok ⟨0, ConnectivityState.IDLE, false⟩,
           Except.ok ⟨1, ConnectivityState.IDLE, false⟩]
       ∧ alistLookup (iterDefault 5 (freshPool [⟨"s1", 0⟩, ⟨"s2", 0⟩, ⟨"s3", 0⟩])).instances "s1"
           = some ⟨0, ConnectivityState.IDLE, false⟩
       ∧ alistLookup (iterDefault 5 (freshPool [⟨"s1", 0⟩, ⟨"s2", 0⟩, ⟨"s3", 0⟩])).instances "s2"
           = some ⟨1, ConnectivityState.IDLE, false⟩
       ∧ alistLookup (iterDefault 5 (freshPool [⟨"s1", 0⟩, ⟨"s2", 0⟩, ⟨"s3", 0⟩])).instances "s3"
           = some ⟨2, ConnectivityState.IDLE, false⟩) := by
  constructor
  · intro st j h hne hacc
    obtain ⟨hs, hai, hh⟩ := iterDefault_spec j st h hacc
    have hne2 : (iterDefault j st).servers ≠ [] := by rw [hs]; exact hne
    rw [selectAddr_default (iterDefault j st) hh hne2, hs, hai]
  · exact ⟨rfl, rfl, rfl, rfl⟩

/-- Witness for C1 at a concrete pool: two servers, third call wraps back
to the first address. -/
theorem roundRobin_default_order_witness :
    healthyServers (freshPool [⟨"s1", 0⟩, ⟨"s2", 0⟩])
    ∧ selectAddr (P := Unit) none "" 0 (iterDefault 2 (freshPool [⟨"s1", 0⟩, ⟨"s2", 0⟩])) none
        = some "s1" := by
  have hh : healthyServers (freshPool [⟨"s1", 0⟩, ⟨"s2", 0⟩]) := by
    intro config hc ins hl
    simp [freshPool, alistLookup] at hl
  refine ⟨hh, ?_⟩
  exact roundRobin_default_order.1 (freshPool [⟨"s1", 0⟩, ⟨"s2", 0⟩]) 2 hh (by decide) (by decide)

/-- C10: under the default strategy the accumulator is advanced by every
`getInstance` call, including calls that fail, and is wrapped to 0 exactly
when the increment pushes it past `Number.MAX_SAFE_INTEGER`; afterwards it
always lies in `[0, MAX_SAFE_INTEGER]`. -/
theorem acc_always_advances_and_wraps :
    ∀ (st : PoolState) (pkg : String) (svcId : Nat) (params : Option Unit),
      (ServiceProxy.getInstance (P := Unit) none pkg svcId st params).2.acc
          = (if st.acc + 1 > MAX_SAFE_INTEGER then 0 else st.acc + 1)
      ∧ (ServiceProxy.getInstance (P := Unit) none pkg svcId st params).2.acc
          ≤ MAX_SAFE_INTEGER := by
  intro st pkg svcId params
  have ha := (getInstance_frame (P := Unit) none pkg svcId st params).2.1
  refine ⟨ha, ?_⟩
  rw [ha]
  by_cases h : st.acc + 1 > MAX_SAFE_INTEGER
  · simp [h]
  · rw [if_neg h]
    omega

/-- C6: a default-strategy call whose candidate list is empty fails with
`NoAvailableServer` and creates no connection; an empty descriptor list
always produces an empty candidate list. -/
theorem empty_candidates_no_available_server :
    ∀ (st : PoolState) (pkg : String) (svcId : Nat) (params : Option Unit),
      (defaultCandidates st = [] →
        (ServiceProxy.getInstance (P := Unit) none pkg svcId st params).1
            = Except.error PoolError.NoAvailableServer
        ∧ (ServiceProxy.getInstance (P := Unit) none pkg svcId st params).2.instances
            = st.instances
        ∧ (ServiceProxy.getInstance (P := Unit) none pkg svcId st params).2.nextUid
            = st.nextUid)
      ∧ (st.servers = [] → defaultCandidates st = []) := by
  intro st pkg svcId params
  constructor
  · intro h
    have hsel : selectAddr (P := Unit) none pkg svcId st params = none := by
      rw [selectAddr_none, h]
      rfl
    unfold ServiceProxy.getInstance
    rw [hsel]
    exact ⟨rfl, rfl, rfl⟩
  · intro h
    simp [defaultCandidates, h]

/-- Witness for C6: the empty pool fails every routing attempt with
`NoAvailableServer`. -/
theorem empty_candidates_no_available_server_witness :
    defaultCandidates (freshPool []) = []
    ∧ (ServiceProxy.getInstance (P := Unit) none "" 0 (freshPool []) none).1
        = Except.error PoolError.NoAvailableServer := by
  refine ⟨rfl, ?_⟩
  exact ((empty_candidates_no_available_server (freshPool []) "" 0 none).1 rfl).1

theorem getInstance_of_cached {P : Type} (resolver : Option (RouteCtx P → String))
    (pkg : String) (svcId : Nat) (st : PoolState) (params : Option P)
    (address : String) (c : Conn)
    (hsel : selectAddr resolver pkg svcId st params = some address)
    (hne : address ≠ "")
    (hc : alistLookup st.instances address = some c) :
    ServiceProxy.getInstance resolver pkg svcId st params
      = (Except.ok c,
          { st with acc := if st.acc + 1 > MAX_SAFE_INTEGER then 0 else st.acc + 1 }) := by
  have hb : (address == "") = false := beq_eq_false_iff_ne.mpr hne
  unfold ServiceProxy.getInstance
  rw [hsel]
  simp [hb, hc]

theorem getInstance_of_fresh {P : Type} (resolver : Option (RouteCtx P → String))
    (pkg : String) (svcId : Nat) (st : PoolState) (params : Option P)
    (address : String) (config : ServerConfig)
    (hsel : selectAddr resolver pkg svcId st params = some address)
    (hne : address ≠ "")
    (hc : alistLookup st.instances address = none)
    (hf : st.servers.find? (fun c0 => c0.address == address) = some config) :
    ServiceProxy.getInstance resolver pkg svcId st params
      = (Except.ok { uid := st.nextUid, chanState := ConnectivityState.IDLE, closed := false },
          { servers := st.servers,
            instances := st.instances
              ++ [(address,
                    { uid := st.nextUid, chanState := ConnectivityState.IDLE, closed := false })],
            acc := if st.acc + 1 > MAX_SAFE_INTEGER then 0 else st.acc + 1,
            nextUid := st.nextUid + 1 }) := by
  have hb : (address == "") = false := beq_eq_false_iff_ne.mpr hne
  unfold ServiceProxy.getInstance
  rw [hsel]
  simp [hb, hc, hf]

theorem getInstance_of_unmatched {P : Type} (resolver : Option (RouteCtx P → String))
    (pkg : String) (svcId : Nat) (st : PoolState) (params : Option P)
    (address : String)
    (hsel : selectAddr resolver pkg svcId st params = some address)
    (hne : address ≠ "")
    (hc : alistLookup st.instances address = none)
    (hf : st.servers.find? (fun c0 => c0.address == address) = none) :
    ServiceProxy.getInstance resolver pkg svcId st params
      = (Except.error PoolError.InvalidRoute,
          { st with acc := if st.acc + 1 > MAX_SAFE_INTEGER then 0 else st.acc + 1 }) := by
  have hb : (address == "") = false := beq_eq_false_iff_ne.mpr hne
  unfold ServiceProxy.getInstance
  rw [hsel]
  simp [hb, hc, hf]

/-- C5: connection handles are created lazily and exactly once per
address: `addServer` never connects (the cache and the uid supply are
untouched); a call whose selected address is already cached returns the
identical cached handle and adds nothing; a call whose selected address is
uncached and configured creates the handle, caches it under that address
only, and leaves every other address's cache entry unchanged. -/
theorem lazy_connect_exactly_once :
    (∀ (st : PoolState) (address : String) (credTag : Nat),
        (ServiceProxy.addServer st address credTag).2.instances = st.instances
        ∧ (ServiceProxy.addServer st address credTag).2.nextUid = st.nextUid)
    ∧ (∀ (P : Type) (resolver : Option (RouteCtx P → String)) (pkg : String) (svcId : Nat)
         (st : PoolState) (params : Option P) (address : String),
        selectAddr resolver pkg svcId st params = some address → address ≠ "" →
        ((∀ c, alistLookup st.instances address = some c →
            (ServiceProxy.getInstance resolver pkg svcId st params).1 = Except.ok c
            ∧ (ServiceProxy.getInstance resolver pkg svcId st params).2.instances
                = st.instances)
         ∧ (alistLookup st.instances address = none →
            ∀ config, st.servers.find? (fun c0 => c0.address == address) = some config →
              (ServiceProxy.getInstance resolver pkg svcId st params).1
                  = Except.ok
                      { uid := st.nextUid, chanState := ConnectivityState.IDLE, closed := false }
              ∧ alistLookup
                    (ServiceProxy.getInstance resolver pkg svcId st params).2.instances address
                  = some
                      { uid := st.nextUid, chanState := ConnectivityState.IDLE, closed := false }
              ∧ ∀ b, b ≠ address →
                  alistLookup
                      (ServiceProxy.getInstance resolver pkg svcId st params).2.instances b
                    = alistLookup st.instances b))) := by
  constructor
  · intro st address credTag
    unfold ServiceProxy.addServer
    split <;> exact ⟨rfl, rfl⟩
  · intro P resolver pkg svcId st params address hsel hne
    constructor
    · intro c hc
      rw [getInstance_of_cached resolver pkg svcId st params address c hsel hne hc]
      exact ⟨rfl, rfl⟩
    · intro hc config hf
      rw [getInstance_of_fresh resolver pkg svcId st params address config hsel hne hc hf]
      refine ⟨rfl, ?_, ?_⟩
      · simp [alistLookup_append, hc, alistLookup_single]
      · intro b hb
        rw [alistLookup_append]
        cases hlb : alistLookup st.instances b with
        | some v => rfl
        | none =>
            simp [alistLookup_single, beq_eq_false_iff_ne.mpr (Ne.symm hb)]

/-- Witness for C5: the first call on a fresh one-server pool creates and
caches the handle with uid 0. -/
theorem lazy_connect_exactly_once_witness :
    (ServiceProxy.getInstance (P := Unit) none "" 0 (freshPool [⟨"s1", 0⟩]) none).1
        = Except.ok { uid := 0, chanState := ConnectivityState.IDLE, closed := false }
    ∧ alistLookup
          (ServiceProxy.getInstance (P := Unit) none "" 0 (freshPool [⟨"s1", 0⟩]) none).2.instances
          "s1"
        = some { uid := 0, chanState := ConnectivityState.IDLE, closed := false } := by
  have h := (lazy_connect_exactly_once.2 Unit none "" 0 (freshPool [⟨"s1", 0⟩]) none "s1"
      rfl (by decide)).2 rfl ⟨"s1", 0⟩ rfl
  exact ⟨h.1, h.2.1⟩

theorem removeServer_servers_ne (st : PoolState) (a : String) (config : ServerConfig)
    (hc : config ∈ (ServiceProxy.removeServer st a).2.servers) : config.address ≠ a := by
  unfold ServiceProxy.removeServer at hc
  by_cases h : st.servers.any (fun item => item.address == a) = true
  · rw [if_pos h] at hc
    rcases List.mem_filter.mp hc with ⟨_, hfl⟩
    intro he
    rw [he] at hfl
    simp at hfl
  · rw [if_neg h] at hc
    intro he
    exact h (List.any_eq_true.mpr ⟨config, hc, by simp [he]⟩)

/-- C7: `removeServer` only removes the descriptor: the connection cache
is untouched (a cached handle for the removed address stays cached,
unclosed and usable), the removed address no longer occurs among the
configured addresses nor in any future default-strategy candidate list,
and `getInstance` never re-adds descriptors. -/
theorem removeServer_keeps_cached_handle :
    ∀ (st : PoolState) (a : String),
      (ServiceProxy.removeServer st a).2.instances = st.instances
      ∧ (∀ c, alistLookup st.instances a = some c →
          alistLookup (ServiceProxy.removeServer st a).2.instances a = some c)
      ∧ a ∉ ((ServiceProxy.removeServer st a).2.servers.map (fun config => config.address))
      ∧ a ∉ defaultCandidates (ServiceProxy.removeServer st a).2
      ∧ (∀ (P : Type) (resolver : Option (RouteCtx P → String)) (pkg : String) (svcId : Nat)
           (params : Option P),
          (ServiceProxy.getInstance resolver pkg svcId
              (ServiceProxy.removeServer st a).2 params).2.servers
            = (ServiceProxy.removeServer st a).2.servers) := by
  intro st a
  have hinst : (ServiceProxy.removeServer st a).2.instances = st.instances := by
    unfold ServiceProxy.removeServer
    split <;> rfl
  have hsrv : a ∉ ((ServiceProxy.removeServer st a).2.servers.map (fun config => config.address)) := by
    intro hmem
    rcases List.mem_map.mp hmem with ⟨config, hcf, haddr⟩
    exact removeServer_servers_ne st a config hcf haddr
  have hcand : a ∉ defaultCandidates (ServiceProxy.removeServer st a).2 := by
    intro hmem
    unfold defaultCandidates at hmem
    exact hsrv (List.mem_of_mem_filter hmem)
  refine ⟨hinst, fun c hc => by rw [hinst]; exact hc, hsrv, hcand, ?_⟩
  intro P resolver pkg svcId params
  exact (getInstance_frame resolver pkg svcId _ params).1

/-- Witness for C7 at a concrete pool holding a cached handle for the
removed address. -/
theorem removeServer_keeps_cached_handle_witness :
    alistLookup
        ((ServiceProxy.removeServer
            { servers := [⟨"s1", 0⟩],
              instances := [("s1", { uid := 0, chanState := ConnectivityState.IDLE, closed := false })],
              acc := 1, nextUid := 1 } "s1").2).instances "s1"
      = some { uid := 0, chanState := ConnectivityState.IDLE, closed := false }
    ∧ "s1" ∉ defaultCandidates
        (ServiceProxy.removeServer
            { servers := [⟨"s1", 0⟩],
              instances := [("s1", { uid := 0, chanState := ConnectivityState.IDLE, closed := false })],
              acc := 1, nextUid := 1 } "s1").2 := by
  have h := removeServer_keeps_cached_handle
      { servers := [⟨"s1", 0⟩],
        instances := [("s1", { uid := 0, chanState := ConnectivityState.IDLE, closed := false })],
        acc := 1, nextUid := 1 } "s1"
  exact ⟨h.2.1 { uid := 0, chanState := ConnectivityState.IDLE, closed := false } rfl, h.2.2.2.1⟩

/-- Counterexample to C2 as stated: after the only descriptor is removed,
a custom resolver keeps returning the now-stale address "s1"; the address
has no matching descriptor, yet `getInstance` returns the cached handle
(uid 0) instead of failing with `InvalidRoute`, because the descriptor
check only runs when the address is not in the connection cache. -/
theorem invalid_route_claim_counterexample :
    ((ServiceProxy.removeServer
        (ServiceProxy.getInstance (P := Unit) (some (fun _ => "s1")) "pkg" 0
            (freshPool [⟨"s1", 0⟩]) none).2 "s1").2.servers.find?
          (fun config => config.address == "s1") = none)
    ∧ (ServiceProxy.getInstance (P := Unit) (some (fun _ => "s1")) "pkg" 0
          (ServiceProxy.removeServer
              (ServiceProxy.getInstance (P := Unit) (some (fun _ => "s1")) "pkg" 0
                  (freshPool [⟨"s1", 0⟩]) none).2 "s1").2 none).1
        = Except.ok { uid := 0, chanState := ConnectivityState.IDLE, closed := false } :=
  ⟨rfl, rfl⟩

/-- C2 (amended): a `getInstance` call whose routing step selects a
non-empty address that has no cached connection and no matching descriptor
fails with `InvalidRoute` ("The resolve server address is invalid") and
returns no handle; when the stale address still has a cached connection,
the cached handle is returned instead (see the counterexample). -/
theorem invalid_route_when_uncached :
    ∀ (P : Type) (resolver : Option (RouteCtx P → String)) (pkg : String) (svcId : Nat)
      (st : PoolState) (params : Option P) (address : String),
      selectAddr resolver pkg svcId st params = some address → address ≠ "" →
      alistLookup st.instances address = none →
      st.servers.find? (fun config => config.address == address) = none →
      (ServiceProxy.getInstance resolver pkg svcId st params).1
          = Except.error PoolError.InvalidRoute
      ∧ (ServiceProxy.getInstance resolver pkg svcId st params).2.instances = st.instances := by
  intro P resolver pkg svcId st params address hsel hne hc hf
  rw [getInstance_of_unmatched resolver pkg svcId st params address hsel hne hc hf]
  exact ⟨rfl, rfl⟩

/-- Witness for the amended C2: a resolver returning the foreign address
"zz" makes the call fail with `InvalidRoute`. -/
theorem invalid_route_when_uncached_witness :
    (ServiceProxy.getInstance (P := Unit) (some (fun _ => "zz")) "pkg" 0
        (freshPool [⟨"s1", 0⟩]) none).1 = Except.error PoolError.InvalidRoute :=
  (invalid_route_when_uncached Unit (some (fun _ => "zz")) "pkg" 0 (freshPool [⟨"s1", 0⟩])
      none "zz" rfl (by decide) rfl rfl).1

/-- Counterexample to C3 as stated: after `close()`, a later `getInstance`
that selects an address whose handle is cached returns that same closed
handle (uid 0, `closed = true`) rather than a freshly connected one, and
under the default strategy the shut-down address is filtered out, so the
call fails with `NoAvailableServer` instead of reconnecting. -/
theorem close_no_reconnect_counterexample :
    (ServiceProxy.getInstance (P := Unit) (some (fun _ => "s1")) "pkg" 0
        (ServiceProxy.close
            (ServiceProxy.getInstance (P := Unit) (some (fun _ => "s1")) "pkg" 0
                (freshPool [⟨"s1", 0⟩]) none).2) none).1
      = Except.ok { uid := 0, chanState := ConnectivityState.SHUTDOWN, closed := true }
    ∧ (ServiceProxy.getInstance (P := Unit) none "pkg" 0
          (ServiceProxy.close
              (ServiceProxy.getInstance (P := Unit) none "pkg" 0
                  (freshPool [⟨"s1", 0⟩]) none).2) none).1
        = Except.error PoolError.NoAvailableServer :=
  ⟨rfl, rfl⟩

/-- C3 (amended): `close()` calls `close()` on every cached handle and
leaves the descriptor list unchanged, but it does not remove cache
entries: an address with a (now closed, `SHUTDOWN`) cached handle is
excluded from the default strategy's candidates, and a call that does
select such an address returns the closed cached handle rather than a
freshly connected one. -/
theorem close_closes_all_keeps_descriptors :
    ∀ (st : PoolState) (a : String) (c : Conn),
      a ≠ "" →
      alistLookup st.instances a = some c →
      (ServiceProxy.close st).servers = st.servers
      ∧ alistLookup (ServiceProxy.close st).instances a = some (Conn.close c)
      ∧ (Conn.close c).closed = true
      ∧ a ∉ defaultCandidates (ServiceProxy.close st)
      ∧ (∀ (P : Type) (resolver : Option (RouteCtx P → String)) (pkg : String) (svcId : Nat)
           (params : Option P),
          selectAddr resolver pkg svcId (ServiceProxy.close st) params = some a →
          (ServiceProxy.getInstance resolver pkg svcId (ServiceProxy.close st) params).1
            = Except.ok (Conn.close c)) := by
  intro st a c ha hc
  have hl : alistLookup (ServiceProxy.close st).instances a = some (Conn.close c) := by
    unfold ServiceProxy.close
    rw [alistLookup_map_value Conn.close st.instances a, hc]
    rfl
  refine ⟨rfl, hl, rfl, ?_, ?_⟩
  · intro hmem
    unfold defaultCandidates at hmem
    rcases List.mem_filter.mp hmem with ⟨_, hha⟩
    unfold healthyAddr at hha
    rw [hl] at hha
    simp [Conn.close] at hha
  · intro P resolver pkg svcId params hsel
    rw [getInstance_of_cached resolver pkg svcId (ServiceProxy.close st) params a
      (Conn.close c) hsel ha hl]

/-- Witness for the amended C3 at a concrete one-server pool with a cached
IDLE handle. -/
theorem close_closes_all_keeps_descriptors_witness :
    alistLookup
        (ServiceProxy.close
            { servers := [⟨"s1", 0⟩],
              instances := [("s1", { uid := 0, chanState := ConnectivityState.IDLE, closed := false })],
              acc := 1, nextUid := 1 }).instances "s1"
      = some { uid := 0, chanState := ConnectivityState.SHUTDOWN, closed := true }
    ∧ "s1" ∉ defaultCandidates
        (ServiceProxy.close
            { servers := [⟨"s1", 0⟩],
              instances := [("s1", { uid := 0, chanState := ConnectivityState.IDLE, closed := false })],
              acc := 1, nextUid := 1 }) := by
  have h := close_closes_all_keeps_descriptors
      { servers := [⟨"s1", 0⟩],
        instances := [("s1", { uid := 0, chanState := ConnectivityState.IDLE, closed := false })],
        acc := 1, nextUid := 1 } "s1"
      { uid := 0, chanState := ConnectivityState.IDLE, closed := false } (by decide) rfl
  exact ⟨h.2.1, h.2.2.2.1⟩

/-- C8: the first registration under a logical name succeeds and stores
the proxy; any later registration whose proxy maps to the same name
returns false and changes nothing, and the registry keeps resolving the
name to the first-registered proxy. -/
theorem register_first_wins :
    ∀ (m : ManagerState) (p1 : ProxyEntry),
      alistLookup m.registry (proxyFullName p1) = none →
      (ConnectionManager.register m p1).1 = true
      ∧ alistLookup (ConnectionManager.register m p1).2.registry (proxyFullName p1) = some p1
      ∧ (∀ (m2 : ManagerState) (p2 : ProxyEntry),
          proxyFullName p2 = proxyFullName p1 →
          alistLookup m2.registry (proxyFullName p1) = some p1 →
          (ConnectionManager.register m2 p2).1 = false
          ∧ (ConnectionManager.register m2 p2).2 = m2
          ∧ alistLookup (ConnectionManager.register m2 p2).2.registry (proxyFullName p1)
              = some p1) := by
  intro m p1 h
  have hreg : ConnectionManager.register m p1
      = (true, { registry := m.registry ++ [(proxyFullName p1, p1)] }) := by
    unfold ConnectionManager.register
    simp only [h]
  refine ⟨by rw [hreg], ?_, ?_⟩
  · rw [hreg, alistLookup_append, h, alistLookup_single, if_pos (by simp)]
  · intro m2 p2 hname hl
    have hreg2 : ConnectionManager.register m2 p2 = (false, m2) := by
      unfold ConnectionManager.register
      simp only [hname, hl]
    rw [hreg2]
    exact ⟨rfl, rfl, hl⟩

/-- Witness for C8: registering the same "pkg.Greeter" name twice succeeds
once, fails once, and leaves the first proxy registered. -/
theorem register_first_wins_witness :
    (ConnectionManager.register { registry := [] }
        ⟨"pkg", "Greeter", 0, freshPool [], none⟩).1 = true
    ∧ (ConnectionManager.register
          (ConnectionManager.register { registry := [] }
              ⟨"pkg", "Greeter", 0, freshPool [], none⟩).2
          ⟨"pkg", "Greeter", 1, freshPool [], none⟩).1 = false
    ∧ alistLookup
          (ConnectionManager.register
              (ConnectionManager.register { registry := [] }
                  ⟨"pkg", "Greeter", 0, freshPool [], none⟩).2
              ⟨"pkg", "Greeter", 1, freshPool [], none⟩).2.registry
          (proxyFullName ⟨"pkg", "Greeter", 0, freshPool [], none⟩)
        = some ⟨"pkg", "Greeter", 0, freshPool [], none⟩ := by
  have h1 := register_first_wins { registry := [] }
      ⟨"pkg", "Greeter", 0, freshPool [], none⟩ rfl
  have h2 := h1.2.2
      (ConnectionManager.register { registry := [] }
          ⟨"pkg", "Greeter", 0, freshPool [], none⟩).2
      ⟨"pkg", "Greeter", 1, freshPool [], none⟩ rfl h1.2.1
  exact ⟨h1.1, h2.1, h2.2.2⟩

theorem lastDotIdx_eq_none_iff (cs : List Char) : lastDotIdx cs = none ↔ '.' ∉ cs := by
  induction cs with
  | nil => simp [lastDotIdx]
  | cons c t ih =>
      cases ht : lastDotIdx t with
      | some i =>
          have hmem : '.' ∈ t := by
            by_contra hn
            rw [ih.mpr hn] at ht
            cases ht
          simp [lastDotIdx, ht, hmem]
      | none =>
          have hnt : '.' ∉ t := ih.mp ht
          by_cases hc : c = '.'
          · simp [lastDotIdx, ht, hc]
          · have hc2 : '.' ≠ c := fun he => hc he.symm
            simp [lastDotIdx, ht, hc, hc2, hnt]

theorem lastDotIdx_append_dot (p q : List Char) (hq : '.' ∉ q) :
    lastDotIdx (p ++ '.' :: q) = some p.length := by
  induction p with
  | nil => simp [lastDotIdx, (lastDotIdx_eq_none_iff q).mpr hq]
  | cons c t ih => simp [lastDotIdx, ih]

theorem lastDotIdx_some_spec (cs : List Char) (i : Nat) (h : lastDotIdx cs = some i) :
    i < cs.length ∧ cs = cs.take i ++ '.' :: cs.drop (i + 1) ∧ '.' ∉ cs.drop (i + 1) := by
  induction cs generalizing i with
  | nil => cases h
  | cons c t ih =>
      cases ht : lastDotIdx t with
      | some j =>
          have hij : j + 1 = i := by simpa [lastDotIdx, ht] using h
          obtain ⟨h1, h2, h3⟩ := ih j ht
          subst hij
          refine ⟨by simpa using Nat.succ_lt_succ h1, ?_, ?_⟩
          · simp only [List.take_succ_cons, List.drop_succ_cons, List.cons_append]
            exact congrArg (List.cons c) h2
          · simpa [List.drop_succ_cons] using h3
      | none =>
          by_cases hc : c = '.'
          · have hi : i = 0 := by
              have := h
              simp [lastDotIdx, ht, hc] at this
              omega
            subst hi
            subst hc
            refine ⟨Nat.succ_pos _, by simp, ?_⟩
            simpa using (lastDotIdx_eq_none_iff t).mp ht
          · exfalso
            simp [lastDotIdx, ht, hc] at h

/-- C9: for every string passed to the registry as a logical service name,
`destructPackageAndServiceNames` splits it at the LAST dot: it either
succeeds, returning a non-empty prefix and a non-empty dot-free suffix
whose rejoining with a dot gives back the input, or it fails with the
`InvalidServiceName` condition, exactly when no such decomposition exists
(no dot at all, empty prefix before the last dot, or empty suffix after
it). -/
theorem name_split_at_last_dot :
    ∀ (s : String),
      (∃ p q : List Char,
          destructPackageAndServiceNames s = Except.ok (String.mk p, String.mk q)
          ∧ p ≠ [] ∧ q ≠ [] ∧ s.data = p ++ '.' :: q ∧ '.' ∉ q)
      ∨ (destructPackageAndServiceNames s = Except.error NameError.InvalidServiceName
          ∧ ¬ ∃ p q : List Char, p ≠ [] ∧ q ≠ [] ∧ '.' ∉ q ∧ s.data = p ++ '.' :: q) := by
  intro s
  cases h : lastDotIdx s.data with
  | none =>
      right
      constructor
      · simp only [destructPackageAndServiceNames, h]
      · rintro ⟨p, q, hp, hq, hqnd, heq⟩
        have hsome : lastDotIdx s.data = some p.length := by
          rw [heq]
          exact lastDotIdx_append_dot p q hqnd
        rw [h] at hsome
        cases hsome
  | some i =>
      obtain ⟨hlt, hdec, hnd⟩ := lastDotIdx_some_spec s.data i h
      by_cases hcond : i = 0 ∨ i = s.data.length - 1
      · right
        constructor
        · simp only [destructPackageAndServiceNames, h]
          rw [if_pos hcond]
        · rintro ⟨p, q, hp, hq, hqnd, heq⟩
          have hsome : lastDotIdx s.data = some p.length := by
            rw [heq]
            exact lastDotIdx_append_dot p q hqnd
          rw [h] at hsome
          have hip : i = p.length := by
            injection hsome
          have hlen : s.data.length = p.length + 1 + q.length := by
            rw [heq]
            simp [List.length_append]
            omega
          rcases hcond with h0 | hl
          · apply hp
            rw [← List.length_eq_zero]
            omega
          · apply hq
            rw [← List.length_eq_zero]
            omega
      · left
        push_neg at hcond
        obtain ⟨hi0, hil⟩ := hcond
        refine ⟨s.data.take i, s.data.drop (i + 1), ?_, ?_, ?_, hdec, hnd⟩
        · simp only [destructPackageAndServiceNames, h]
          rw [if_neg (by push_neg; exact ⟨hi0, hil⟩)]
        · have hlen2 : (s.data.take i).length = i := by
            rw [List.length_take]
            exact Nat.min_eq_left (Nat.le_of_lt hlt)
          intro hnil
          rw [hnil] at hlen2
          simp only [List.length_nil] at hlen2
          exact hi0 hlen2.symm
        · have hlen3 : (s.data.drop (i + 1)).length = s.data.length - (i + 1) :=
            List.length_drop _ _
          intro hnil
          rw [hnil] at hlen3
          simp only [List.length_nil] at hlen3
          omega

/-- C4: a chaining-proxy node reached by traversing the non-bookkeeping
properties "pkg" and then "Greeter" accumulates the path "pkg.Greeter",
and invoking any node forwards its full accumulated path to
`ConnectionManager.getInstanceOf` together with the argument — the last
path segment is not treated as a method name. -/
theorem chaining_accessor_resolves_full_path :
    ∀ (m : ManagerState) (params : Option Unit),
      "pkg" ∉ chainOwnProps →
      "Greeter" ∉ chainOwnProps →
      chainInvoke m (ChainingProxy.childPath (ChainingProxy.childPath "" "pkg") "Greeter") params
          = ConnectionManager.getInstanceOf m "pkg.Greeter" params
      ∧ (∀ t : String, chainInvoke m t params = ConnectionManager.getInstanceOf m t params) := by
  intro m params h1 h2
  have hpath : ChainingProxy.childPath (ChainingProxy.childPath "" "pkg") "Greeter"
      = "pkg.Greeter" := by decide
  rw [hpath]
  exact ⟨rfl, fun t => rfl⟩

/-- Witness for C4 on the empty registry. -/
theorem chaining_accessor_resolves_full_path_witness :
    chainInvoke { registry := [] }
        (ChainingProxy.childPath (ChainingProxy.childPath "" "pkg") "Greeter") none
      = ConnectionManager.getInstanceOf { registry := [] } "pkg.Greeter" none :=
  (chaining_accessor_resolves_full_path { registry := [] } none (by decide) (by decide)).1
